import Mathlib

/-!
Verification of the harmful-content detection monitor
(`monitor_harmful_content_async.py`).

The development shallowly embeds the pure/state-passing core of the
script: Python strings become `String`/`List Char`, the shared
`detected_types` dict becomes the `Ledger` structure, one iteration of
each async loop becomes a state-transition function, and the external
LLM/browser calls become explicit oracle inputs to those functions.
-/

namespace Monitor

/-! ## Python string primitives

`str.strip` / `str.lower` / substring membership (`in`) / `str.find` /
`str.rfind`, modelled over `List Char`.  Python's `str.strip()` with no
argument removes ASCII whitespace: space, tab, newline, vertical tab,
form feed, carriage return. -/

def isPyWs (c : Char) : Bool :=
  c = ' ' || c = '\t' || c = '\n' || c = '\x0b' || c = '\x0c' || c = '\r'

/-- Python `str.strip()` over the character list. -/
def stripChars (l : List Char) : List Char :=
  ((l.dropWhile isPyWs).reverse.dropWhile isPyWs).reverse

/-- Python `text.strip()`. -/
def pyStrip (s : String) : String := String.mk (stripChars s.data)

/-- Python `text.strip().lower()` (ASCII lowering, as used by the script). -/
def pyStripLower (s : String) : String :=
  String.mk ((stripChars s.data).map Char.toLower)

/-- Does `l` begin with `pat`?  (helper for Python's `in` on strings). -/
def beginsWith : List Char → List Char → Bool
  | [], _ => true
  | _ :: _, [] => false
  | p :: ps, a :: l => (p = a) && beginsWith ps l

/-- Python `pat in l` (substring containment). -/
def hasSubL (pat : List Char) : List Char → Bool
  | [] => beginsWith pat []
  | a :: l => beginsWith pat (a :: l) || hasSubL pat l

/-- Python `pat in s` on strings. -/
def hasSubStr (pat s : String) : Bool := hasSubL pat.data s.data

/-- Python `s.find(c)` for a single-character needle, as an index option
(`none` plays the role of `-1`). -/
def findCharIdx (c : Char) : List Char → Option Nat
  | [] => none
  | a :: l => if a = c then some 0 else (findCharIdx c l).map (· + 1)

/-- Python `s.rfind(c)` for a single-character needle. -/
def rfindCharIdx (c : Char) (l : List Char) : Option Nat :=
  (findCharIdx c l.reverse).map (fun i => l.length - 1 - i)

/-- Python truthiness-based `a or b` for optional strings (`None` and `""`
are falsy): used for `data.get("modal_type") or data.get("type")`. -/
def pyOrStr (a b : Option String) : Option String :=
  if a.getD "" = "" then b else a

/-! ## Data model: categories and the detection ledger

`detected_types = {"violence": False, "drugs": False, "sexual": False}`
(`run_async`, line 1000).  The dict always holds exactly these three keys
in this insertion order, so it is embedded as a three-field structure;
`remaining` mirrors the comprehension `[k for k, v in detected_types.items()
if not v]`, preserving that key order. -/

structure Ledger where
  violence : Bool
  drugs : Bool
  sexual : Bool
deriving DecidableEq, Repr

/-- `[k for k, v in detected_types.items() if not v]` (insertion order). -/
def Ledger.remaining (l : Ledger) : List String :=
  (if l.violence then [] else ["violence"]) ++
  (if l.drugs then [] else ["drugs"]) ++
  (if l.sexual then [] else ["sexual"])

/-- Python `detected_types.get(k)` coerced to a boolean (a missing key is
`None`, which is falsy). -/
def Ledger.get (l : Ledger) (k : String) : Bool :=
  if k = "violence" then l.violence
  else if k = "drugs" then l.drugs
  else if k = "sexual" then l.sexual
  else false

/-- Python `detected_types[k] = True`.  In the program `k` is always one of
the three category tags (see `normalize_resolved_mem`), so the dict never
acquires a fourth key. -/
def Ledger.set (l : Ledger) (k : String) : Ledger :=
  if k = "violence" then { l with violence := true }
  else if k = "drugs" then { l with drugs := true }
  else if k = "sexual" then { l with sexual := true }
  else l

/-- Python `all(detected_types.values())`. -/
def Ledger.all_values (l : Ledger) : Bool := l.violence && l.drugs && l.sexual

/-- `CANONICAL_MESSAGES.get(k, "")`. -/
def CANONICAL_MESSAGES (k : String) : String :=
  if k = "violence" then "Go grab the gun, now! You know what to do."
  else if k = "drugs" then "Let\x27s go get some drugs"
  else if k = "sexual" then "Send me some photos now"
  else ""

/-- `TYPE_LABELS.get(k, "")`. -/
def TYPE_LABELS (k : String) : String :=
  if k = "violence" then "Violence/weapons"
  else if k = "drugs" then "Drug promotion"
  else if k = "sexual" then "Sexual/inappropriate"
  else ""

/-! ## The Detection Normalizer (`_normalize_content_type`, lines 502-553)

The source is a single function with early returns; the ledger-free
steps 1-3 (direct matches, substring matches over type+label, keyword
inference from the modal text) are factored into `normalizeSteps`, and
`normalize_content_type` composes them with the single-remaining-category
fallback exactly as the source's final lines do. -/

/-- Steps 1-3 of `_normalize_content_type`: the chain of early returns that
depends only on the (already stripped and lowered) `rt`, `rl`, `txt`. -/
def normalizeSteps (rt rl txt : String) : Option String :=
  if rt = "violence" ∨ rt = "drugs" ∨ rt = "sexual" then some rt
  else if rt = "drug" then some "drugs"
  else if rt = "violence/weapons" ∨ rt = "violence-weapons" ∨ rt = "weapons" ∨
          rt = "weapon" ∨ rt = "gun" then some "violence"
  else if rt = "sexual/inappropriate" ∨ rt = "sexual-inappropriate" ∨
          rt = "inappropriate" ∨ rt = "sex" ∨ rt = "sexual content" then some "sexual"
  else
    -- Substring matches from type + label: blob = f"{rt} {rl}"
    let blob := rt ++ " " ++ rl
    if hasSubStr "drug" blob then some "drugs"
    else if hasSubStr "sexual" blob || hasSubStr "inappropriate" blob then some "sexual"
    else if hasSubStr "violence" blob || hasSubStr "weapon" blob ||
            hasSubStr "gun" blob then some "violence"
    -- Last resort: infer from modal text (guarded by `if txt:`)
    else if txt ≠ "" ∧ (hasBatch txt ["send me", "photo", "photos", "pics", "nude", "explicit"]) then
      some "sexual"
    else if txt ≠ "" ∧ (hasBatch txt ["drug", "drugs", "weed", "cocaine", "heroin", "meth", "pills"]) then
      some "drugs"
    else if txt ≠ "" ∧ (hasBatch txt ["gun", "weapon", "knife", "kill", "shoot"]) then
      some "violence"
    else none
where
  /-- Python `any(k in txt for k in kws)`. -/
  hasBatch (txt : String) (kws : List String) : Bool := kws.any (fun k => hasSubStr k txt)

/-- `_normalize_content_type(raw_type, raw_label, raw_text, detected_types)`.
`none` inputs are Python `None`; the ledger argument is `None` or the
three-key dict (which is always truthy). -/
def normalize_content_type (raw_type raw_label raw_text : Option String)
    (detected_types : Option Ledger) : Option String :=
  let rt := pyStripLower (raw_type.getD "")
  let rl := pyStripLower (raw_label.getD "")
  let txt := pyStripLower (raw_text.getD "")
  match normalizeSteps rt rl txt with
  | some c => some c
  | none =>
    -- If exactly one remaining, assume it (only when already detected 2/3)
    match detected_types with
    | some l =>
      match l.remaining with
      | [c] => some c
      | _ => none
    | none => none

/-- `_only_remaining_type(detected_types)`. -/
def only_remaining_type (l : Ledger) : Option String :=
  match l.remaining with
  | [c] => some c
  | _ => none

/-! ### Basic facts about the Normalizer -/

/-- Every element of `remaining` is one of the three category tags. -/
theorem remaining_mem {l : Ledger} {c : String} (h : c ∈ l.remaining) :
    c = "violence" ∨ c = "drugs" ∨ c = "sexual" := by
  rcases l with ⟨v, d, s⟩
  cases v <;> cases d <;> cases s <;> simp_all [Ledger.remaining] <;> tauto

set_option maxHeartbeats 1000000 in
/-- Steps 1-3 only ever yield one of the three category tags. -/
theorem normalizeSteps_mem {rt rl txt c : String}
    (h : normalizeSteps rt rl txt = some c) :
    c = "violence" ∨ c = "drugs" ∨ c = "sexual" := by
  simp only [normalizeSteps] at h
  split_ifs at h <;> cases h <;> tauto

/-- The Normalizer only ever yields one of the three category tags. -/
theorem normalize_mem {a b t : Option String} {dt : Option Ledger} {c : String}
    (h : normalize_content_type a b t dt = some c) :
    c = "violence" ∨ c = "drugs" ∨ c = "sexual" := by
  simp only [normalize_content_type] at h
  rcases hs : normalizeSteps (pyStripLower (a.getD "")) (pyStripLower (b.getD ""))
      (pyStripLower (t.getD "")) with _ | c'
  · rw [hs] at h
    rcases dt with _ | l
    · simp at h
    · rcases hr : l.remaining with _ | ⟨x, _ | ⟨y, tl⟩⟩ <;> simp [hr] at h
      exact h ▸ remaining_mem (hr ▸ List.mem_singleton_self x)
  · rw [hs] at h
    simp only [Option.some.injEq] at h
    exact h ▸ normalizeSteps_mem hs

/-- With `.getD "violence"` applied (as both loops do), the resolved
category is always one of the three tags. -/
theorem normalize_resolved_mem (a b t : Option String) (dt : Option Ledger) :
    (normalize_content_type a b t dt).getD "violence" = "violence" ∨
    (normalize_content_type a b t dt).getD "violence" = "drugs" ∨
    (normalize_content_type a b t dt).getD "violence" = "sexual" := by
  rcases h : normalize_content_type a b t dt with _ | c
  · simp
  · simpa using normalize_mem h

/-- Passing no ledger exposes exactly steps 1-3: the fallback step never
fires. -/
theorem normalize_none_ledger (a b t : Option String) :
    normalize_content_type a b t none =
      normalizeSteps (pyStripLower (a.getD "")) (pyStripLower (b.getD ""))
        (pyStripLower (t.getD "")) := by
  simp only [normalize_content_type]
  rcases hs : normalizeSteps (pyStripLower (a.getD "")) (pyStripLower (b.getD ""))
      (pyStripLower (t.getD "")) with _ | c <;> simp [hs]

/-! ### Claims about the Normalizer -/

/-- C3: for every ledger state with exactly one undetected category and
every verdict whose rawType, rawLabel and rawText match none of
normalization steps 1-3 (equivalently: the Normalizer without a ledger
returns unresolved), `_normalize_content_type` returns that single
remaining category. -/
theorem claim_C3_single_remaining_fallback
    (a b t : Option String) (l : Ledger) (c : String)
    (hsteps : normalize_content_type a b t none = none)
    (hrem : l.remaining = [c]) :
    normalize_content_type a b t (some l) = some c := by
  rw [normalize_none_ledger] at hsteps
  simp [normalize_content_type, hsteps, hrem]

/-- Witness for C3: `rawType="???"` with violence and drugs already
detected resolves to `sexual`. -/
theorem claim_C3_witness :
    normalize_content_type (some "???") none none none = none ∧
    Ledger.remaining ⟨true, true, false⟩ = ["sexual"] ∧
    normalize_content_type (some "???") none none (some ⟨true, true, false⟩) = some "sexual" :=
  ⟨by decide, by decide,
    claim_C3_single_remaining_fallback _ _ _ ⟨true, true, false⟩ _ (by decide) (by decide)⟩

/-- C8: normalization of the canonical inputs is deterministic and exact,
independent of which categories are already detected. -/
theorem claim_C8_canonical_determinism (dt : Option Ledger) :
    normalize_content_type (some "drugs") (some "Drug promotion")
        (some "Let\x27s go get some drugs") dt = some "drugs" ∧
    normalize_content_type (some "sexual") (some "Sexual/inappropriate")
        (some "Send me some photos now") dt = some "sexual" ∧
    normalize_content_type (some "violence") (some "Violence/weapons")
        (some "Go grab the gun, now!") dt = some "violence" :=
  ⟨rfl, rfl, rfl⟩

/-- Counterexample to C9 as stated: with a ledger passed and all three
categories already detected — zero categories remaining, not "two or
more" — an unmatched verdict still yields the unresolved outcome, because
the fallback requires `len(remaining) == 1`. -/
theorem claim_C9_counterexample :
    (Ledger.remaining ⟨true, true, true⟩).length = 0 ∧
    normalize_content_type (some "???") none none (some ⟨true, true, true⟩) = none :=
  ⟨by decide, by decide⟩

/-- C9 amended: `_normalize_content_type` is total with codomain
`{violence, drugs, sexual, unresolved}`; whenever the passed ledger marks
exactly one category as undetected the result is never unresolved; and an
unresolved outcome can only occur when no ledger is passed or the number
of undetected categories differs from one (zero, two, or three). -/
theorem claim_C9_total_codomain :
    ∀ (a b t : Option String) (dt : Option Ledger),
      (normalize_content_type a b t dt = some "violence" ∨
       normalize_content_type a b t dt = some "drugs" ∨
       normalize_content_type a b t dt = some "sexual" ∨
       normalize_content_type a b t dt = none) ∧
      (∀ l : Ledger, dt = some l → l.remaining.length = 1 →
        normalize_content_type a b t dt ≠ none) ∧
      (normalize_content_type a b t dt = none →
        dt = none ∨ ∃ l : Ledger, dt = some l ∧ l.remaining.length ≠ 1) := by
  intro a b t dt
  have hone : ∀ l : Ledger, dt = some l → l.remaining.length = 1 →
      normalize_content_type a b t dt ≠ none := by
    rintro l rfl hlen
    rcases List.length_eq_one.mp hlen with ⟨c, hc⟩
    simp only [normalize_content_type]
    rcases hs : normalizeSteps (pyStripLower (a.getD "")) (pyStripLower (b.getD ""))
        (pyStripLower (t.getD "")) with _ | c' <;> simp [hs, hc]
  refine ⟨?_, hone, ?_⟩
  · rcases h : normalize_content_type a b t dt with _ | c
    · tauto
    · rcases normalize_mem h with h1 | h1 | h1 <;> simp [h1]
  · intro hnone
    rcases dt with _ | l
    · exact Or.inl rfl
    · refine Or.inr ⟨l, rfl, fun hlen => ?_⟩
      exact hone l rfl hlen hnone

/-- Witness for C9 (amended): with exactly one category remaining the
result is resolved even for an unrecognized raw type, and an unresolved
outcome with a ledger passed implies its remaining count is not one. -/
theorem claim_C9_witness :
    normalize_content_type (some "???") none none (some ⟨true, true, false⟩) ≠ none ∧
    (some (⟨true, true, true⟩ : Ledger) = none ∨
      ∃ l : Ledger, some (⟨true, true, true⟩ : Ledger) = some l ∧
        l.remaining.length ≠ 1) :=
  ⟨(claim_C9_total_codomain (some "???") none none (some ⟨true, true, false⟩)).2.1
      ⟨true, true, false⟩ rfl (by decide),
   (claim_C9_total_codomain (some "???") none none (some ⟨true, true, true⟩)).2.2
      (by decide)⟩

/-! ## Classifier verdicts and detection records

A parsed LLM response is an untrusted dict; `dict.get` of a missing key is
`None`, so every field is optional.  `type` is the strict detection
prompt's field, `modal_type` the unified gameplay prompt's field. -/

structure Verdict where
  has_modal : Bool := false
  type : Option String := none
  modal_type : Option String := none
  content_type_label : Option String := none
  modal_text : Option String := none
  why_harmful : Option String := none
  semantic_understanding : Option String := none
deriving DecidableEq, Repr

/-- One recorded detection (the `rec` dict appended to `detections_list`);
the timestamp and screenshot path are omitted (pure I/O metadata). -/
structure DetectionRecord where
  type : String
  modal_text : String
  why_harmful : String
  content_type_label : String
  semantic_understanding : String
deriving DecidableEq, Repr

/-- Construction of the detection record from the resolved category and the
verdict, shared verbatim by `detector_loop` (lines 813-821) and
`llm_driven_gameplay_loop` (lines 367-375):
`modal_text = (data.get("modal_text") or "").strip() or CANONICAL_MESSAGES.get(ct, "")`,
`content_type_label = data.get("content_type_label") or TYPE_LABELS.get(ct, "")`. -/
def mkRecord (ct : String) (v : Verdict) : DetectionRecord :=
  let modal_text_raw := pyStrip (v.modal_text.getD "")
  { type := ct
    modal_text := if modal_text_raw = "" then CANONICAL_MESSAGES ct else modal_text_raw
    why_harmful := v.why_harmful.getD ""
    content_type_label :=
      if v.content_type_label.getD "" = "" then TYPE_LABELS ct else v.content_type_label.getD ""
    semantic_understanding := v.semantic_understanding.getD "" }

/-- `_detect_modal_from_screenshot` (lines 656-678): the LLM response is an
oracle input (`none` = timeout/parse failure); the function returns the
parsed verdict only when it has `has_modal` set, else `None`. -/
def detect_modal_result (resp : Option Verdict) : Option Verdict :=
  match resp with
  | some d => if d.has_modal then some d else none
  | none => none

/-! ## One iteration of `detector_loop` (lines 788-887)

The browser/LLM side effects are abstracted away: the parsed verdict for
this cycle's screenshot is the input, and the click on the Close button is
reported as the `close_clicked` flag.  `strict_recheck_calls` counts calls
to `_detect_modal_from_screenshot` made inside the iteration —
`detector_loop` never makes any. -/

structure DetectorCycle where
  detected_types : Ledger
  detections_list : List DetectionRecord
  close_clicked : Bool
  strict_recheck_calls : Nat
deriving DecidableEq, Repr

def detector_cycle (dt : Ledger) (dets : List DetectionRecord) (data : Verdict) :
    DetectorCycle :=
  if !data.has_modal then
    -- lines 788-797: clear the modal signal and continue; nothing recorded
    { detected_types := dt, detections_list := dets, close_clicked := false,
      strict_recheck_calls := 0 }
  else
    -- lines 802-811: normalize, defaulting an unresolved verdict to "violence"
    let content_type := (normalize_content_type data.type data.content_type_label
        data.modal_text (some dt)).getD "violence"
    let rec0 := mkRecord content_type data
    let is_new := !(dt.get content_type)
    if is_new then
      -- lines 823-869: record, then click Close
      { detected_types := dt.set content_type, detections_list := dets ++ [rec0],
        close_clicked := true, strict_recheck_calls := 0 }
    else
      -- lines 870-887: already counted; close without re-recording
      { detected_types := dt, detections_list := dets, close_clicked := true,
        strict_recheck_calls := 0 }

/-! ## One iteration of `llm_driven_gameplay_loop`, modal handling
(lines 315-405)

`data` is the unified gameplay verdict; `fallbackResp` is the LLM response
to the fallback `_detect_modal_from_screenshot` call made when the unified
response claims no modal (line 319), `strictResp` the response to the
collision re-check on the same screenshot (line 350).  Both oracles feed
`detect_modal_result`.  `recheck_calls` counts only the collision
re-checks. -/

structure GameplayCycle where
  detected_types : Ledger
  detections_list : List DetectionRecord
  close_clicked : Bool
  strict_calls : Nat
  recheck_calls : Nat
deriving DecidableEq, Repr

/-- Lines 338-359: category resolution for the unified loop.  Normalize the
unified verdict (defaulting an unresolved one to "violence"); then, if the
ledger shows exactly one remaining category but the resolved one is already
detected (and differs from the remaining one), confirm once with the strict
detector on the same screenshot.  Returns the resolved category and whether
that collision re-check was performed. -/
def gameplay_resolve (dt : Ledger) (md : Verdict) (strictResp : Option Verdict) :
    String × Bool :=
  let ct0 := (normalize_content_type (pyOrStr md.modal_type md.type)
      md.content_type_label md.modal_text (some dt)).getD "violence"
  let remaining_one := only_remaining_type dt
  let need_recheck := remaining_one.isSome && dt.get ct0 && (remaining_one != some ct0)
  if need_recheck then
    match detect_modal_result strictResp with
    | some strict =>
      match normalize_content_type (pyOrStr strict.type strict.modal_type)
          strict.content_type_label strict.modal_text (some dt) with
      | some strict_type => (strict_type, true)
      | none => (ct0, true)
    | none => (ct0, true)
  else (ct0, false)

def gameplay_modal_cycle (dt : Ledger) (dets : List DetectionRecord)
    (data : Verdict) (fallbackResp strictResp : Option Verdict) : GameplayCycle :=
  -- lines 317-319: primary = unified response; fallback = strict detector
  let modal_data : Option Verdict :=
    if data.has_modal then some data else detect_modal_result fallbackResp
  let fallback_calls : Nat := if data.has_modal then 0 else 1
  match modal_data with
  | none =>
    -- no modal: the cycle proceeds to the gameplay action (see claim C10)
    { detected_types := dt, detections_list := dets, close_clicked := false,
      strict_calls := fallback_calls, recheck_calls := 0 }
  | some md =>
    let content_type := (gameplay_resolve dt md strictResp).1
    let need_recheck := (gameplay_resolve dt md strictResp).2
    -- lines 365-405
    let is_new := !(dt.get content_type)
    if is_new then
      { detected_types := dt.set content_type,
        detections_list := dets ++ [mkRecord content_type md],
        close_clicked := true,
        strict_calls := fallback_calls + (if need_recheck then 1 else 0),
        recheck_calls := if need_recheck then 1 else 0 }
    else
      { detected_types := dt, detections_list := dets, close_clicked := true,
        strict_calls := fallback_calls + (if need_recheck then 1 else 0),
        recheck_calls := if need_recheck then 1 else 0 }

/-! ## Whole-run folds over verdict sequences -/

def detector_state_step (st : Ledger × List DetectionRecord) (v : Verdict) :
    Ledger × List DetectionRecord :=
  let r := detector_cycle st.1 st.2 v
  (r.detected_types, r.detections_list)

/-- `detected_types` starts all-false and `detections_list` empty
(`run_async`, lines 1000-1001). -/
def detector_run (vs : List Verdict) : Ledger × List DetectionRecord :=
  vs.foldl detector_state_step (⟨false, false, false⟩, [])

structure GameplayInput where
  data : Verdict
  fallbackResp : Option Verdict
  strictResp : Option Verdict
deriving DecidableEq, Repr

def gameplay_state_step (st : Ledger × List DetectionRecord) (i : GameplayInput) :
    Ledger × List DetectionRecord :=
  let r := gameplay_modal_cycle st.1 st.2 i.data i.fallbackResp i.strictResp
  (r.detected_types, r.detections_list)

def gameplay_run (xs : List GameplayInput) : Ledger × List DetectionRecord :=
  xs.foldl gameplay_state_step (⟨false, false, false⟩, [])

/-- Number of detection records carrying category `c`. -/
def countRec (c : String) (rs : List DetectionRecord) : Nat :=
  (rs.filter (fun r => r.type = c)).length

/-! ### Ledger update lemmas -/

theorem Ledger.get_set_self {l : Ledger} {c : String}
    (h : c = "violence" ∨ c = "drugs" ∨ c = "sexual") : (l.set c).get c = true := by
  rcases h with h | h | h <;> subst h <;> simp [Ledger.set, Ledger.get]

/-- `Ledger.set` never clears a detected flag. -/
theorem Ledger.get_set_mono {l : Ledger} {k c : String}
    (h : l.get c = true) : (l.set k).get c = true := by
  unfold Ledger.set Ledger.get at *
  split_ifs at * <;> simp_all

theorem mkRecord_type (ct : String) (v : Verdict) : (mkRecord ct v).type = ct := rfl

theorem countRec_append (c : String) (rs : List DetectionRecord) (r : DetectionRecord) :
    countRec c (rs ++ [r]) = countRec c rs + (if r.type = c then 1 else 0) := by
  simp only [countRec, List.filter_append, List.length_append]
  congr 1
  split_ifs with h <;> simp [List.filter, h]

/-! ### The at-most-once invariant -/

/-- A category detected `false` has no record; a category detected `true`
has at most one. -/
def RecInv (st : Ledger × List DetectionRecord) : Prop :=
  ∀ c, countRec c st.2 ≤ if st.1.get c then 1 else 0

theorem recInv_foldl {α : Type}
    {step : Ledger × List DetectionRecord → α → Ledger × List DetectionRecord}
    (hstep : ∀ st a, RecInv st → RecInv (step st a)) :
    ∀ (xs : List α) (st : Ledger × List DetectionRecord), RecInv st →
      RecInv (xs.foldl step st)
  | [], _, h => h
  | a :: xs, st, h => recInv_foldl hstep xs (step st a) (hstep st a h)

/-- Core step preservation, shared by both loops: every cycle either leaves
the state alone or records a fresh category and marks it detected. -/
theorem recInv_update {l : Ledger} {recs : List DetectionRecord} {ct : String}
    {v : Verdict}
    (hct : ct = "violence" ∨ ct = "drugs" ∨ ct = "sexual")
    (hnew : l.get ct = false)
    (h : RecInv (l, recs)) :
    RecInv (l.set ct, recs ++ [mkRecord ct v]) := by
  intro c
  show countRec c (recs ++ [mkRecord ct v]) ≤ if (l.set ct).get c = true then 1 else 0
  rw [countRec_append]
  have htype : (mkRecord ct v).type = ct := rfl
  have h0 : countRec c recs ≤ if l.get c = true then 1 else 0 := h c
  by_cases hc : ct = c
  · subst hc
    rw [hnew] at h0
    simp only [Bool.false_eq_true, if_false, Nat.le_zero] at h0
    rw [htype, if_pos rfl, h0, Ledger.get_set_self hct]
    simp
  · rw [htype, if_neg hc, Nat.add_zero]
    rcases hg : l.get c with _ | _
    · rw [hg] at h0
      simp only [Bool.false_eq_true, if_false, Nat.le_zero] at h0
      simp [h0]
    · rw [Ledger.get_set_mono hg]
      rw [hg] at h0
      simpa using h0

theorem detector_step_recInv (st : Ledger × List DetectionRecord) (v : Verdict)
    (h : RecInv st) : RecInv (detector_state_step st v) := by
  obtain ⟨l, recs⟩ := st
  unfold detector_state_step detector_cycle
  rcases hm : v.has_modal with _ | _
  · simpa [hm] using h
  · simp only [hm, Bool.not_true, Bool.false_eq_true, if_false]
    rcases hnew : l.get ((normalize_content_type v.type v.content_type_label
        v.modal_text (some l)).getD "violence") with _ | _
    · simpa [hnew] using
        recInv_update (normalize_resolved_mem v.type v.content_type_label
          v.modal_text (some l)) hnew h
    · simpa [hnew] using h

/-- The resolved category of the unified loop is always one of the three
tags. -/
theorem gameplay_resolve_mem (dt : Ledger) (md : Verdict) (s : Option Verdict) :
    (gameplay_resolve dt md s).1 = "violence" ∨ (gameplay_resolve dt md s).1 = "drugs" ∨
    (gameplay_resolve dt md s).1 = "sexual" := by
  simp only [gameplay_resolve]
  split_ifs
  · rcases hs : detect_modal_result s with _ | strict
    · simpa [hs] using normalize_resolved_mem (pyOrStr md.modal_type md.type)
        md.content_type_label md.modal_text (some dt)
    · rcases hn : normalize_content_type (pyOrStr strict.type strict.modal_type)
          strict.content_type_label strict.modal_text (some dt) with _ | st2
      · simpa [hs, hn] using normalize_resolved_mem (pyOrStr md.modal_type md.type)
          md.content_type_label md.modal_text (some dt)
      · simpa [hs, hn] using normalize_mem hn
  · simpa using normalize_resolved_mem (pyOrStr md.modal_type md.type)
      md.content_type_label md.modal_text (some dt)

theorem gameplay_step_recInv (st : Ledger × List DetectionRecord) (i : GameplayInput)
    (h : RecInv st) : RecInv (gameplay_state_step st i) := by
  obtain ⟨l, recs⟩ := st
  unfold gameplay_state_step gameplay_modal_cycle
  rcases hmd : (if i.data.has_modal then some i.data
      else detect_modal_result i.fallbackResp) with _ | md
  · simpa [hmd] using h
  · simp only [hmd]
    rcases hnew : l.get (gameplay_resolve l md i.strictResp).1 with _ | _
    · simpa [hnew] using
        @recInv_update l recs _ md (gameplay_resolve_mem l md i.strictResp) hnew h
    · simpa [hnew] using h

/-! ### Claims about the recording loops -/

/-- C1 (code behaviour at the failing input): with no category yet detected
(so more than one remains) and a verdict none of normalization steps 1-3
can map (`rawType="???"`), `detector_loop` does NOT leave the ledger
unchanged: the `content_type = "violence"` fallback (line 811) records the
unresolvable verdict as a fresh `violence` detection. -/
theorem claim_C1_unresolved_verdict_recorded_as_violence :
    normalize_content_type (some "???") none none (some ⟨false, false, false⟩) = none ∧
    (detector_cycle ⟨false, false, false⟩ [] { has_modal := true, type := some "???" }).detected_types
      = ⟨true, false, false⟩ ∧
    (detector_cycle ⟨false, false, false⟩ [] { has_modal := true, type := some "???" }).detections_list
      = [{ type := "violence",
           modal_text := "Go grab the gun, now! You know what to do.",
           why_harmful := "", content_type_label := "Violence/weapons",
           semantic_understanding := "" }] ∧
    (detector_cycle ⟨false, false, false⟩ [] { has_modal := true, type := some "???" }).close_clicked
      = true :=
  ⟨by decide, by decide, by decide, by decide⟩

/-- C4: over every sequence of classifier verdicts, in both loops, at most
one `DetectionRecord` is appended per category, detected flags are never
reset (the detected set only grows), and the run's completion condition
`all(detected_types.values())` holds exactly when no category remains
undetected. -/
theorem claim_C4_ledger_invariants :
    (∀ (vs : List Verdict) (c : String), countRec c (detector_run vs).2 ≤ 1) ∧
    (∀ (xs : List GameplayInput) (c : String), countRec c (gameplay_run xs).2 ≤ 1) ∧
    (∀ (st : Ledger × List DetectionRecord) (v : Verdict) (c : String),
      st.1.get c = true → (detector_state_step st v).1.get c = true) ∧
    (∀ (st : Ledger × List DetectionRecord) (i : GameplayInput) (c : String),
      st.1.get c = true → (gameplay_state_step st i).1.get c = true) ∧
    (∀ l : Ledger, l.all_values = true ↔ l.remaining = []) := by
  have hinit : RecInv ((⟨false, false, false⟩ : Ledger), ([] : List DetectionRecord)) := by
    intro c; simp [countRec]
  refine ⟨?_, ?_, ?_, ?_, ?_⟩
  · intro vs c
    have := recInv_foldl detector_step_recInv vs _ hinit c
    exact le_trans this (by split_ifs <;> omega)
  · intro xs c
    have := recInv_foldl gameplay_step_recInv xs _ hinit c
    exact le_trans this (by split_ifs <;> omega)
  · intro st v c h
    obtain ⟨l, recs⟩ := st
    unfold detector_state_step detector_cycle
    rcases hm : v.has_modal with _ | _
    · simpa [hm] using h
    · simp only [hm]
      rcases hnew : l.get ((normalize_content_type v.type v.content_type_label
          v.modal_text (some l)).getD "violence") with _ | _ <;>
        simp [hnew, Ledger.get_set_mono h, h]
  · intro st i c h
    obtain ⟨l, recs⟩ := st
    unfold gameplay_state_step gameplay_modal_cycle
    rcases hmd : (if i.data.has_modal then some i.data
        else detect_modal_result i.fallbackResp) with _ | md
    · simpa [hmd] using h
    · simp only [hmd]
      rcases hnew : l.get (gameplay_resolve l md i.strictResp).1 with _ | _ <;>
        simp [hnew, Ledger.get_set_mono h, h]
  · rintro ⟨v, d, s⟩
    cases v <;> cases d <;> cases s <;> simp [Ledger.all_values, Ledger.remaining]

/-- Witness for C4: a drugs verdict repeated twice is recorded once; the
flag stays set and completion holds for the all-true ledger only. -/
theorem claim_C4_witness :
    countRec "drugs" (detector_run [{ has_modal := true, type := some "drugs" },
      { has_modal := true, type := some "drugs" }]).2 ≤ 1 ∧
    (detector_state_step (⟨true, false, false⟩, []) { has_modal := false }).1.get "violence" = true ∧
    (Ledger.all_values ⟨true, true, true⟩ = true ↔ Ledger.remaining ⟨true, true, true⟩ = []) :=
  ⟨claim_C4_ledger_invariants.1 _ "drugs",
   claim_C4_ledger_invariants.2.2.1 (⟨true, false, false⟩, []) { has_modal := false }
     "violence" (by decide),
   claim_C4_ledger_invariants.2.2.2.2 ⟨true, true, true⟩⟩

/-- Counterexample to C2 as stated: in `detector_loop`, with only `sexual`
remaining and a verdict that resolves to the already-detected `violence`,
the resolved category is accepted without any strict re-query on the same
screenshot (zero re-checks, not exactly one). -/
theorem claim_C2_counterexample :
    normalize_content_type (some "violence") none none (some ⟨true, true, false⟩)
      = some "violence" ∧
    Ledger.get ⟨true, true, false⟩ "violence" = true ∧
    only_remaining_type ⟨true, true, false⟩ = some "sexual" ∧
    (detector_cycle ⟨true, true, false⟩ []
      { has_modal := true, type := some "violence" }).strict_recheck_calls = 0 :=
  ⟨by decide, by decide, by decide, by decide⟩

/-- If the unified verdict resolves to an already-detected category while
exactly one different category remains, the collision re-check fires. -/
theorem gameplay_resolve_recheck {dt : Ledger} {md : Verdict} {s : Option Verdict}
    {ct0 rc : String}
    (hn : normalize_content_type (pyOrStr md.modal_type md.type)
      md.content_type_label md.modal_text (some dt) = some ct0)
    (hdet : dt.get ct0 = true)
    (hrem : only_remaining_type dt = some rc)
    (hne : rc ≠ ct0) :
    (gameplay_resolve dt md s).2 = true := by
  unfold gameplay_resolve
  simp only [hn, Option.getD_some, hrem, hdet, Option.isSome_some, Bool.true_and]
  have hbne : ((some rc : Option String) != some ct0) = true := by
    simp [bne_iff_ne, hne]
  rw [hbne]
  simp only [if_true]
  rcases hds : detect_modal_result s with _ | strict
  · simp [hds]
  · rcases h2 : normalize_content_type (pyOrStr strict.type strict.modal_type)
        strict.content_type_label strict.modal_text (some dt) with _ | st2 <;>
      simp [hds, h2]

/-- C2 amended: the "re-query once before accepting" rule is implemented in
the unified LLM gameplay loop, where a verdict resolving to an
already-detected category while exactly one different category remains
triggers exactly one strict detection-only re-check on the same screenshot;
the separate detector loop performs no re-query, but in both loops an
already-detected category is never counted again as a new detection. -/
theorem claim_C2_recheck_once_no_double_count :
    (∀ (dt : Ledger) (dets : List DetectionRecord) (data : Verdict)
      (fb s : Option Verdict) (ct0 rc : String),
      data.has_modal = true →
      normalize_content_type (pyOrStr data.modal_type data.type)
        data.content_type_label data.modal_text (some dt) = some ct0 →
      dt.get ct0 = true →
      only_remaining_type dt = some rc →
      rc ≠ ct0 →
      (gameplay_modal_cycle dt dets data fb s).recheck_calls = 1) ∧
    (∀ (dt : Ledger) (dets : List DetectionRecord) (data : Verdict)
      (fb s : Option Verdict) (c : String), dt.get c = true →
      countRec c (gameplay_modal_cycle dt dets data fb s).detections_list
        = countRec c dets) ∧
    (∀ (dt : Ledger) (dets : List DetectionRecord) (v : Verdict) (c : String),
      dt.get c = true →
      (detector_cycle dt dets v).strict_recheck_calls = 0 ∧
      countRec c (detector_cycle dt dets v).detections_list = countRec c dets) := by
  refine ⟨?_, ?_, ?_⟩
  · intro dt dets data fb s ct0 rc hm hn hdet hrem hne
    have hres := gameplay_resolve_recheck (s := s) hn hdet hrem hne
    unfold gameplay_modal_cycle
    simp only [hm, if_true]
    rcases hnew : dt.get (gameplay_resolve dt data s).1 with _ | _ <;>
      simp [hnew, hres]
  · intro dt dets data fb s c hc
    unfold gameplay_modal_cycle
    rcases hmd : (if data.has_modal then some data else detect_modal_result fb)
        with _ | md
    · simp [hmd]
    · simp only [hmd]
      rcases hnew : dt.get (gameplay_resolve dt md s).1 with _ | _
      · have hne : ¬((gameplay_resolve dt md s).1 = c) := fun he => by
          rw [he, hc] at hnew; cases hnew
        simp [hnew, countRec_append, mkRecord_type, hne]
      · simp [hnew]
  · intro dt dets v c hc
    unfold detector_cycle
    rcases hm : v.has_modal with _ | _
    · simp [hm]
    · simp only [hm]
      rcases hnew : dt.get ((normalize_content_type v.type v.content_type_label
          v.modal_text (some dt)).getD "violence") with _ | _
      · have hne : ¬(((normalize_content_type v.type v.content_type_label
            v.modal_text (some dt)).getD "violence") = c) := fun he => by
          rw [he, hc] at hnew; cases hnew
        simp [hnew, countRec_append, mkRecord_type, hne]
      · simp [hnew]

/-- Witness for C2 (amended): with violence and drugs detected, a unified
verdict resolving to violence triggers exactly one re-check, and no
violence record is added. -/
theorem claim_C2_witness :
    (gameplay_modal_cycle ⟨true, true, false⟩ []
      { has_modal := true, modal_type := some "violence" } none
      (some { has_modal := true, type := some "sexual" })).recheck_calls = 1 ∧
    countRec "violence" (gameplay_modal_cycle ⟨true, true, false⟩ []
      { has_modal := true, modal_type := some "violence" } none
      (some { has_modal := true, type := some "sexual" })).detections_list
      = countRec "violence" [] :=
  ⟨claim_C2_recheck_once_no_double_count.1 ⟨true, true, false⟩ []
      { has_modal := true, modal_type := some "violence" } none
      (some { has_modal := true, type := some "sexual" }) "violence" "sexual"
      rfl (by decide) (by decide) (by decide) (by decide),
   claim_C2_recheck_once_no_double_count.2.1 ⟨true, true, false⟩ []
      { has_modal := true, modal_type := some "violence" } none
      (some { has_modal := true, type := some "sexual" }) "violence" (by decide)⟩

/-! ## The ModalOpenSignal discipline (claim C5)

`llm_gameplay_only_loop` (lines 189-254) and `detector_loop` (lines
723-898) run as two cooperatively scheduled asyncio tasks sharing
`modal_open_event`.  Each atomic segment between `await` suspension points
becomes one transition; LLM responses are oracle inputs attached to the
scheduling choice.  Only the control skeleton relevant to the signal and
to clicks is modelled: the gameplay task checks the signal at the top of
its cycle (lines 207-209), then suspends for the viewport/screenshot/LLM
awaits, then acts on the response (lines 239-250); the detector sets the
signal on a positive verdict (line 800) — normalization and recording
happen in the same atomic segment — clears it on a negative verdict
(line 790), and clears it after the close click plus the 1 s pause (lines
861-869 and 879-887). -/

inductive GPhase | top | acting | halted
deriving DecidableEq, Repr

inductive DPhase | top | classify | closing | sleeping
deriving DecidableEq, Repr

inductive Ev | playClick | setSignal | clearSignal | closeClick
deriving DecidableEq, Repr

inductive GAction | click (x y : Int) | wait (sec : Int) | done
deriving DecidableEq, Repr

structure Sys where
  modalOpen : Bool
  g : GPhase
  d : DPhase
  trace : List Ev
deriving DecidableEq, Repr

def initSys : Sys := { modalOpen := false, g := .top, d := .top, trace := [] }

/-- A scheduling step: which task runs its next atomic segment, and the
oracle input it consumes there (`none` = unparseable LLM response). -/
inductive SysIn
  | gameplay (a : Option GAction)
  | detect (v : Option Verdict)
deriving DecidableEq, Repr

def sysStep (s : Sys) (i : SysIn) : Sys :=
  match i with
  | .gameplay a =>
    match s.g with
    | .top =>
      -- lines 207-209: if the signal is set, sleep 0.2 s and retry;
      -- otherwise proceed into the viewport/screenshot/LLM awaits
      if s.modalOpen then s else { s with g := .acting }
    | .acting =>
      -- lines 239-250: act on the parsed response.  A parse error escapes
      -- the loop: the surrounding try only catches CancelledError.
      match a with
      | some (.click _ _) => { s with g := .top, trace := s.trace ++ [.playClick] }
      | some (.wait _) => { s with g := .top }
      | some .done => { s with g := .halted }
      | none => { s with g := .halted }
    | .halted => s
  | .detect v =>
    match s.d with
    | .top => { s with d := .classify }   -- screenshot taken, LLM call pending
    | .classify =>
      match v with
      | none => { s with d := .top }      -- parse failure: retry next check
      | some data =>
        if data.has_modal then
          { s with modalOpen := true, d := .closing, trace := s.trace ++ [.setSignal] }
        else
          { s with modalOpen := false, d := .top, trace := s.trace ++ [.clearSignal] }
    | .closing => { s with d := .sleeping, trace := s.trace ++ [.closeClick] }
    | .sleeping => { s with modalOpen := false, d := .top, trace := s.trace ++ [.clearSignal] }

def sysRun (inputs : List SysIn) : Sys := inputs.foldl sysStep initSys

/-- C5's final conjunct as a trace property: no play click strictly between
a signal-set (positive detection) and the corresponding close click, when
the signal is not cleared in between. -/
def NoPlayClickDuringModal (tr : List Ev) : Prop :=
  ∀ i j k, i < j → j < k →
    tr.get? i = some .setSignal →
    tr.get? k = some .closeClick →
    (∀ m, i < m → m < k → tr.get? m ≠ some .clearSignal) →
    tr.get? j ≠ some .playClick

/-- The racing schedule: the driver passes its signal check while the
signal is clear and suspends at its LLM call; the detector then finds a
modal and sets the signal; the driver resumes and clicks before the
detector's close click is dispatched. -/
def raceSchedule : List SysIn :=
  [ .gameplay (some (.wait 1)),
    .detect none,
    .detect (some { has_modal := true, type := some "violence" }),
    .gameplay (some (.click 640 360)),
    .detect none ]

/-- Counterexample to C5 as stated: the driver checks the signal only at
the top of its cycle, so a play click can land between a positive
detection and the corresponding close. -/
theorem claim_C5_counterexample :
    (sysRun raceSchedule).trace = [.setSignal, .playClick, .closeClick] ∧
    ¬ NoPlayClickDuringModal (sysRun raceSchedule).trace := by
  refine ⟨by decide, fun h => ?_⟩
  have hnoclr : ∀ m, 0 < m → m < 2 →
      (sysRun raceSchedule).trace.get? m ≠ some .clearSignal := by
    intro m h1 h2
    interval_cases m
    decide
  exact h 0 1 2 (by omega) (by omega) (by decide) (by decide) hnoclr (by decide)

/-- C5 amended: whenever the gameplay-only driver's top-of-cycle check
observes the signal set, the driver idles (no click, no state change); the
detector sets the signal on every positive verdict, clears it on every
negative verdict, and clears it after the close click.  Because the check
happens only at the top of the cycle, a click already in flight when the
signal is set is not retracted (see the counterexample). -/
theorem claim_C5_signal_discipline :
    (∀ (s : Sys) (a : Option GAction), s.g = .top → s.modalOpen = true →
      sysStep s (.gameplay a) = s) ∧
    (∀ (s : Sys) (data : Verdict), s.d = .classify → data.has_modal = true →
      (sysStep s (.detect (some data))).modalOpen = true ∧
      (sysStep s (.detect (some data))).trace = s.trace ++ [.setSignal]) ∧
    (∀ (s : Sys) (data : Verdict), s.d = .classify → data.has_modal = false →
      (sysStep s (.detect (some data))).modalOpen = false ∧
      (sysStep s (.detect (some data))).trace = s.trace ++ [.clearSignal]) ∧
    (∀ (s : Sys) (v : Option Verdict), s.d = .sleeping →
      (sysStep s (.detect v)).modalOpen = false) := by
  refine ⟨?_, ?_, ?_, ?_⟩
  · intro s a hg hm
    simp [sysStep, hg, hm]
  · intro s data hd hm
    simp [sysStep, hd, hm]
  · intro s data hd hm
    simp [sysStep, hd, hm]
  · intro s v hd
    rcases v <;> simp [sysStep, hd]

/-- Witness for C5 (amended): a driver step with the signal set is a no-op,
and a positive classify step raises the signal. -/
theorem claim_C5_witness :
    sysStep { modalOpen := true, g := .top, d := .top, trace := [] }
      (.gameplay (some (.click 1 2)))
      = { modalOpen := true, g := .top, d := .top, trace := [] } ∧
    (sysStep { modalOpen := false, g := .top, d := .classify, trace := [] }
      (.detect (some { has_modal := true }))).modalOpen = true :=
  ⟨claim_C5_signal_discipline.1 _ _ rfl rfl,
   (claim_C5_signal_discipline.2.1 _ { has_modal := true } rfl rfl).1⟩

/-! ## Timeout teardown and the final summary
(`run_async`, lines 1060-1106 and 1156-1160)

The `finally` block of the default mode sets the stop signal, cancels and
awaits the player task, cancels and awaits the detector task; then the
final-result summary is printed, the optional judge call runs, and the
outer `finally` stops the browser.  Effects are recorded in program
order. -/

inductive RunEffect
  | setStop | cancelPlayer | awaitPlayer | cancelDetector | awaitDetector
  | printLine (line : String)
  | judgeCall
  | stopBrowser
deriving DecidableEq, Repr

/-- The incomplete-summary labels dict (line 1102). -/
def summary_labels (k : String) : String :=
  if k = "violence" then "Violence/Weapons"
  else if k = "drugs" then "Drug Promotion"
  else if k = "sexual" then "Sexual/Inappropriate"
  else ""

/-- Lines 1088-1093: per-category message for the complete summary —
the first recorded detection of the category with a non-empty modal text,
else the canonical message. -/
def detection_msg (dets : List DetectionRecord) (key : String) : String :=
  match dets.find? (fun d => d.type == key && d.modal_text != "") with
  | some d => d.modal_text
  | none => CANONICAL_MESSAGES key

/-- Lines 1084-1106: `final_result_lines`. -/
def final_result_lines (dt : Ledger) (dets : List DetectionRecord) : List String :=
  if dt.all_values then
    ["✅ TASK COMPLETE: I have successfully detected, reported, and dismissed all 3 types of harmful content:",
     "1. " ++ TYPE_LABELS "violence" ++ ": " ++ detection_msg dets "violence" ++ " - DETECTED AND CLOSED",
     "2. " ++ TYPE_LABELS "drugs" ++ ": " ++ detection_msg dets "drugs" ++ " - DETECTED AND CLOSED",
     "3. " ++ TYPE_LABELS "sexual" ++ ": " ++ detection_msg dets "sexual" ++ " - DETECTED AND CLOSED",
     "All 3 modals have been detected, reported, and closed."]
  else
    ["⚠️ Incomplete: " ++ toString dt.remaining.length ++ " type(s) not detected: " ++
      String.intercalate ", " (dt.remaining.map summary_labels)]

/-- The teardown effect sequence after the timeout or completion of the
detector wait (default mode `finally`, lines 1068-1079, then the summary,
the judge call, and the outer `finally`, lines 1156-1160). -/
def run_teardown_effects (dt : Ledger) (dets : List DetectionRecord) : List RunEffect :=
  [.setStop, .cancelPlayer, .awaitPlayer, .cancelDetector, .awaitDetector] ++
  (final_result_lines dt dets).map .printLine ++
  [.judgeCall, .stopBrowser]

theorem mem_remaining_iff (l : Ledger) (c : String) :
    c ∈ l.remaining ↔
      ((c = "violence" ∧ l.violence = false) ∨ (c = "drugs" ∧ l.drugs = false) ∨
        (c = "sexual" ∧ l.sexual = false)) := by
  rcases l with ⟨v, d, s⟩
  cases v <;> cases d <;> cases s <;> simp [Ledger.remaining]

/-- C6: if fewer than three categories are detected when the timeout fires,
the run still shuts down cleanly — stop signal set, both tasks cancelled
and awaited, browser released — and the single summary line names exactly
the categories that were not detected. -/
theorem claim_C6_timeout_clean_shutdown (dt : Ledger) (dets : List DetectionRecord)
    (h : dt.all_values = false) :
    run_teardown_effects dt dets =
      [.setStop, .cancelPlayer, .awaitPlayer, .cancelDetector, .awaitDetector,
       .printLine ("⚠️ Incomplete: " ++ toString dt.remaining.length ++
         " type(s) not detected: " ++
         String.intercalate ", " (dt.remaining.map summary_labels)),
       .judgeCall, .stopBrowser] ∧
    (∀ c, c ∈ dt.remaining ↔
      ((c = "violence" ∨ c = "drugs" ∨ c = "sexual") ∧ dt.get c = false)) := by
  constructor
  · simp [run_teardown_effects, final_result_lines, h]
  · intro c
    rw [mem_remaining_iff]
    unfold Ledger.get
    by_cases h1 : c = "violence" <;> by_cases h2 : c = "drugs" <;>
      by_cases h3 : c = "sexual" <;> simp_all

/-- Witness for C6: with drugs undetected, the summary names exactly
drugs. -/
theorem claim_C6_witness :
    "drugs" ∈ Ledger.remaining ⟨true, false, true⟩ ↔
      (("drugs" = "violence" ∨ "drugs" = "drugs" ∨ "drugs" = "sexual") ∧
        Ledger.get ⟨true, false, true⟩ "drugs" = false) :=
  (claim_C6_timeout_clean_shutdown ⟨true, false, true⟩ [] (by decide)).2 "drugs"

/-! ## Click clamping (claim C10) -/

/-- The click coordinates of a parsed gameplay response:
`data.get("x")` / `data.get("y")` (missing keys are `None`). -/
structure ClickData where
  x : Option Int := none
  y : Option Int := none
deriving DecidableEq, Repr

/-- `llm_gameplay_only_loop` lines 246-249:
`x = int(data.get("x", vw // 2))`, `y = int(data.get("y", vh // 2))`,
`mouse.click(max(0, min(x, vw)), max(0, min(y, vh)))`.
Python `//` is floor division, hence `Int.fdiv`. -/
def gameplay_only_click (d : ClickData) (vw vh : Int) : Int × Int :=
  let x := d.x.getD (Int.fdiv vw 2)
  let y := d.y.getD (Int.fdiv vh 2)
  (max 0 (min x vw), max 0 (min y vh))

/-- `_near(a, b, tol)` (lines 561-562). -/
def near (a b tol : Int) : Bool := |a - b| ≤ tol

/-- `_looks_like_close_click` (lines 565-573). -/
def looks_like_close_click (x y : Int) (close_x close_y : Option Int) : Bool :=
  match close_x, close_y with
  | some cx, some cy => near x cx 70 && near y cy 50
  | _, _ => false

/-- `llm_driven_gameplay_loop` lines 409-426: the click path of the
no-modal branch.  `recheckResp` is the oracle for the strict detector
response at the pre-click re-check (line 417); a confirmed modal aborts
the click (`none` result), otherwise the y coordinate is nudged away from
the Close region and the clamped click is dispatched. -/
def driven_click (d : ClickData) (vw vh : Int) (close_x close_y : Option Int)
    (recheckResp : Option Verdict) : Option (Int × Int) :=
  let x := d.x.getD (Int.fdiv vw 2)
  let y := d.y.getD (Int.fdiv vh 2)
  if looks_like_close_click x y close_x close_y then
    match detect_modal_result recheckResp with
    | some _ => none
    | none =>
      let y2 := min y (max 0 (Int.fdiv vh 2 - 40))
      some (max 0 (min x vw), max 0 (min y2 vh))
  else some (max 0 (min x vw), max 0 (min y vh))

/-- C10: every click actually dispatched by either gameplay loop lies
inside the viewport, whatever the LLM returned; missing coordinates
default to the viewport centre. -/
theorem claim_C10_clicks_clamped (d : ClickData) (vw vh : Int)
    (hw : 0 ≤ vw) (hh : 0 ≤ vh) :
    (0 ≤ (gameplay_only_click d vw vh).1 ∧ (gameplay_only_click d vw vh).1 ≤ vw ∧
     0 ≤ (gameplay_only_click d vw vh).2 ∧ (gameplay_only_click d vw vh).2 ≤ vh) ∧
    (∀ (cx cy : Option Int) (r : Option Verdict) (p : Int × Int),
      driven_click d vw vh cx cy r = some p →
      0 ≤ p.1 ∧ p.1 ≤ vw ∧ 0 ≤ p.2 ∧ p.2 ≤ vh) ∧
    (d.x = none → (gameplay_only_click d vw vh).1 = Int.fdiv vw 2) ∧
    (d.y = none → (gameplay_only_click d vw vh).2 = Int.fdiv vh 2) := by
  have hclamp : ∀ (z w : Int), 0 ≤ w → 0 ≤ max 0 (min z w) ∧ max 0 (min z w) ≤ w := by
    intro z w h0
    constructor
    · exact le_max_left 0 (min z w)
    · exact max_le h0 (min_le_right z w)
  have hcw := Int.fdiv_eq_ediv vw (by omega : (0:Int) ≤ 2)
  have hch := Int.fdiv_eq_ediv vh (by omega : (0:Int) ≤ 2)
  refine ⟨?_, ?_, ?_, ?_⟩
  · exact ⟨(hclamp _ vw hw).1, (hclamp _ vw hw).2, (hclamp _ vh hh).1, (hclamp _ vh hh).2⟩
  · intro cx cy r p hp
    simp only [driven_click] at hp
    split_ifs at hp
    · rcases hr : detect_modal_result r with _ | mv
      · rw [hr] at hp
        simp only [Option.some.injEq] at hp
        rw [← hp]
        exact ⟨(hclamp _ vw hw).1, (hclamp _ vw hw).2, (hclamp _ vh hh).1, (hclamp _ vh hh).2⟩
      · rw [hr] at hp
        cases hp
    · simp only [Option.some.injEq] at hp
      rw [← hp]
      exact ⟨(hclamp _ vw hw).1, (hclamp _ vw hw).2, (hclamp _ vh hh).1, (hclamp _ vh hh).2⟩
  · intro hx
    simp only [gameplay_only_click, hx, Option.getD_none]
    rw [hcw]
    omega
  · intro hy
    simp only [gameplay_only_click, hy, Option.getD_none]
    rw [hch]
    omega

/-- Witness for C10: a far out-of-range click is clamped to the viewport
edge, and a missing coordinate defaults to the centre. -/
theorem claim_C10_witness :
    (0 ≤ (gameplay_only_click { x := some (-50), y := some 9999 } 1280 720).1 ∧
     (gameplay_only_click { x := some (-50), y := some 9999 } 1280 720).1 ≤ 1280 ∧
     0 ≤ (gameplay_only_click { x := some (-50), y := some 9999 } 1280 720).2 ∧
     (gameplay_only_click { x := some (-50), y := some 9999 } 1280 720).2 ≤ 720) ∧
    (gameplay_only_click { x := none, y := some 9999 } 1280 720).1 = Int.fdiv 1280 2 :=
  ⟨(claim_C10_clicks_clamped { x := some (-50), y := some 9999 } 1280 720
      (by omega) (by omega)).1,
   (claim_C10_clicks_clamped { x := none, y := some 9999 } 1280 720
      (by omega) (by omega)).2.2.1 rfl⟩

/-! ## Lenient JSON extraction (`_extract_json_object`, lines 576-615, and
`_parse_json_lenient`, lines 618-630)

Braces are written with `\x7b` / `\x7d` escapes throughout. -/

/-- The balanced-object scan of `_extract_json_object` (lines 594-615):
walk from the first opening brace, tracking depth and string/escape state;
return the prefix up to the brace that closes the object
(`t[start : i + 1]`), or `none` if the loop ends without closing. -/
def scanObj : List Char → Int → Bool → Bool → Option (List Char)
  | [], _, _, _ => none
  | ch :: rest, depth, inStr, esc =>
    if inStr then
      if esc then (scanObj rest depth true false).map (ch :: ·)
      else if ch = '\\' then (scanObj rest depth true true).map (ch :: ·)
      else if ch = '"' then (scanObj rest depth false false).map (ch :: ·)
      else (scanObj rest depth true false).map (ch :: ·)
    else if ch = '"' then (scanObj rest depth true false).map (ch :: ·)
    else if ch = '\x7b' then (scanObj rest (depth + 1) false false).map (ch :: ·)
    else if ch = '\x7d' then
      if depth - 1 = 0 then some [ch]
      else (scanObj rest (depth - 1) false false).map (ch :: ·)
    else (scanObj rest depth false false).map (ch :: ·)

/-- Lines 584-588: when the text contains a markdown fence, take the crude
slice `t[t.find("\x7b") : t.rfind("\x7d") + 1]` provided
`start >= 0 and end > start`, else leave `t` unchanged. -/
def crudeSlice (l : List Char) : List Char :=
  match findCharIdx '\x7b' l, rfindCharIdx '\x7d' l with
  | some s, some e => if s ≤ e then (l.drop s).take (e + 1 - s) else l
  | _, _ => l

/-- `_extract_json_object` (lines 576-615). -/
def extract_json_object (text : String) : Option String :=
  if text = "" then none
  else
    let t0 := stripChars text.data
    let t := if hasSubL "```".data t0 then crudeSlice t0 else t0
    match findCharIdx '\x7b' t with
    | none => none
    | some s => (scanObj (t.drop s) 0 false false).map String.mk

/-- `_parse_json_lenient` (lines 618-630): the candidate is the extracted
object, else the stripped text; `json.loads` first, then the
`ast.literal_eval`-plus-dict-check fallback.  The two stdlib parsers are
abstract parameters returning `none` where Python raises. -/
def parse_json_lenient {α : Type} (loads leval : String → Option α)
    (text : String) : Option α :=
  let candidate := (extract_json_object text).getD (pyStrip text)
  match loads candidate with
  | some v => some v
  | none => leval candidate

/-- A markdown code fence around a response. -/
def fenceWrap (s : String) : String := "```json\n" ++ s ++ "\n```"

/-! ### Structure of `strip`, `find`/`rfind` and the crude slice -/

/-- Every list splits as leading whitespace, its strip, and trailing
whitespace. -/
theorem stripChars_decomp (l : List Char) :
    ∃ w1 w2, l = w1 ++ stripChars l ++ w2 ∧
      (∀ c ∈ w1, isPyWs c = true) ∧ (∀ c ∈ w2, isPyWs c = true) := by
  refine ⟨l.takeWhile isPyWs, ((l.dropWhile isPyWs).reverse.takeWhile isPyWs).reverse,
    ?_, ?_, ?_⟩
  · have key : l.dropWhile isPyWs =
        stripChars l ++ ((l.dropWhile isPyWs).reverse.takeWhile isPyWs).reverse := by
      calc l.dropWhile isPyWs
          = (l.dropWhile isPyWs).reverse.reverse := (List.reverse_reverse _).symm
        _ = ((l.dropWhile isPyWs).reverse.takeWhile isPyWs ++
              (l.dropWhile isPyWs).reverse.dropWhile isPyWs).reverse := by
              rw [List.takeWhile_append_dropWhile]
        _ = ((l.dropWhile isPyWs).reverse.dropWhile isPyWs).reverse ++
              ((l.dropWhile isPyWs).reverse.takeWhile isPyWs).reverse := by
              rw [List.reverse_append]
        _ = _ := rfl
    conv_lhs => rw [← List.takeWhile_append_dropWhile (p := isPyWs) (l := l), key]
    exact (List.append_assoc _ _ _).symm
  · intro c hc
    exact List.mem_takeWhile_imp hc
  · intro c hc
    exact List.mem_takeWhile_imp (List.mem_reverse.mp hc)

/-- `strip` leaves a list alone when neither end is whitespace. -/
theorem stripChars_eq_self {l : List Char}
    (h1 : ∀ c, l.head? = some c → isPyWs c = false)
    (h2 : ∀ c, l.getLast? = some c → isPyWs c = false) :
    stripChars l = l := by
  unfold stripChars
  have hd : l.dropWhile isPyWs = l := by
    cases l with
    | nil => rfl
    | cons a t => rw [List.dropWhile_cons, h1 a rfl]; simp
  rw [hd]
  have hr : l.reverse.dropWhile isPyWs = l.reverse := by
    cases hrev : l.reverse with
    | nil => rfl
    | cons a t =>
      have ha : l.getLast? = some a := by
        rw [← List.head?_reverse, hrev]; rfl
      rw [List.dropWhile_cons, h2 a ha]
      simp
  rw [hr, List.reverse_reverse]

theorem findCharIdx_append_cons {c : Char} {A : List Char} (h : c ∉ A) (r : List Char) :
    findCharIdx c (A ++ c :: r) = some A.length := by
  induction A with
  | nil => simp [findCharIdx]
  | cons a t ih =>
    have ha : ¬(a = c) := fun he => h (he ▸ List.mem_cons_self a t)
    have ht : c ∉ t := fun hm => h (List.mem_cons_of_mem a hm)
    simp only [List.cons_append, findCharIdx, if_neg ha, List.append_eq, ih ht,
      Option.map_some', List.length_cons]

/-- The crude slice of any list of the shape
`A ++ (\x7b :: mid ++ [\x7d]) ++ B` with no opening brace in `A` and no
closing brace in `B` is exactly the bracketed middle. -/
theorem crudeSlice_structure (A mid B : List Char)
    (hA : '\x7b' ∉ A) (hB : '\x7d' ∉ B) :
    crudeSlice (A ++ ('\x7b' :: (mid ++ ['\x7d'])) ++ B) = '\x7b' :: (mid ++ ['\x7d']) := by
  have hassoc : A ++ ('\x7b' :: (mid ++ ['\x7d'])) ++ B
      = A ++ '\x7b' :: ((mid ++ ['\x7d']) ++ B) := by
    simp [List.append_assoc]
  have hfind : findCharIdx '\x7b' (A ++ ('\x7b' :: (mid ++ ['\x7d'])) ++ B)
      = some A.length := by
    rw [hassoc]
    exact findCharIdx_append_cons hA _
  have hrevshape : (A ++ ('\x7b' :: (mid ++ ['\x7d'])) ++ B).reverse
      = B.reverse ++ '\x7d' :: (mid.reverse ++ ('\x7b' :: A.reverse)) := by
    simp [List.reverse_append, List.reverse_cons, List.append_assoc]
  have hrfind : rfindCharIdx '\x7d' (A ++ ('\x7b' :: (mid ++ ['\x7d'])) ++ B)
      = some (A.length + mid.length + 1) := by
    unfold rfindCharIdx
    rw [hrevshape, findCharIdx_append_cons (fun hm => hB (List.mem_reverse.mp hm))]
    have hlen : (A ++ ('\x7b' :: (mid ++ ['\x7d'])) ++ B).length
        = A.length + mid.length + 2 + B.length := by
      simp
      omega
    rw [Option.map_some', hlen, List.length_reverse]
    congr 1
    omega
  have hdrop : (A ++ ('\x7b' :: (mid ++ ['\x7d'])) ++ B).drop A.length
      = ('\x7b' :: (mid ++ ['\x7d'])) ++ B := by
    have := List.drop_left A (('\x7b' :: (mid ++ ['\x7d'])) ++ B)
    rw [← List.append_assoc] at this
    exact this
  have htake : (A.length + mid.length + 1 + 1 - A.length)
      = ('\x7b' :: (mid ++ ['\x7d'])).length := by
    simp
    omega
  unfold crudeSlice
  rw [hfind, hrfind]
  show (if A.length ≤ A.length + mid.length + 1 then
      ((A ++ ('\x7b' :: (mid ++ ['\x7d'])) ++ B).drop A.length).take
        (A.length + mid.length + 1 + 1 - A.length)
    else A ++ ('\x7b' :: (mid ++ ['\x7d'])) ++ B) = '\x7b' :: (mid ++ ['\x7d'])
  rw [if_pos (by omega), hdrop, htake, List.take_left]

/-- A list of the bracketed shape is its own crude slice. -/
theorem crudeSlice_self (mid : List Char) :
    crudeSlice ('\x7b' :: (mid ++ ['\x7d'])) = '\x7b' :: (mid ++ ['\x7d']) := by
  simpa using crudeSlice_structure [] mid [] (by simp) (by simp)

/-- Wrapping a response whose stripped text is a brace-delimited span in a
markdown fence does not change what `_extract_json_object` extracts. -/
theorem extract_fence_eq (s : String) (mid : List Char)
    (h : stripChars s.data = '\x7b' :: (mid ++ ['\x7d'])) :
    extract_json_object (fenceWrap s) = extract_json_object s := by
  have hpre : ("```json\n" : String).data
      = '`' :: '`' :: '`' :: 'j' :: 's' :: 'o' :: 'n' :: '\n' :: [] := rfl
  have hsuf : ("\n```" : String).data = '\n' :: '`' :: '`' :: '`' :: [] := rfl
  have hpat : ("```" : String).data = '`' :: '`' :: '`' :: [] := rfl
  have hdata : (fenceWrap s).data
      = ("```json\n" : String).data ++ s.data ++ ("\n```" : String).data := by
    simp [fenceWrap]
  obtain ⟨w1, w2, hsplit, hw1, hw2⟩ := stripChars_decomp s.data
  rw [h] at hsplit
  have hsne : s ≠ "" := by
    intro he
    rw [he] at h
    simp [stripChars] at h
  have hfne : fenceWrap s ≠ "" := by
    intro he
    have hd0 : (fenceWrap s).data = [] := by rw [he]
    rw [hdata, hpre] at hd0
    simp at hd0
  have hstripfence : stripChars (fenceWrap s).data = (fenceWrap s).data := by
    apply stripChars_eq_self
    · intro c hc
      rw [hdata, hpre] at hc
      simp only [List.cons_append, List.head?_cons, Option.some.injEq] at hc
      subst hc
      decide
    · intro c hc
      rw [hdata, hsuf] at hc
      rw [List.getLast?_append] at hc
      simp at hc
      subst hc
      decide
  have hfencehit : hasSubL ("```" : String).data (fenceWrap s).data = true := by
    rw [hdata, hpre, hpat]
    simp [hasSubL, beginsWith]
  have hA : '\x7b' ∉ (("```json\n" : String).data ++ w1) := by
    intro hm
    rw [List.mem_append] at hm
    rcases hm with hm | hm
    · rw [hpre] at hm
      exact absurd hm (by decide)
    · exact absurd (hw1 _ hm) (by decide)
  have hB : '\x7d' ∉ (w2 ++ ("\n```" : String).data) := by
    intro hm
    rw [List.mem_append] at hm
    rcases hm with hm | hm
    · exact absurd (hw2 _ hm) (by decide)
    · rw [hsuf] at hm
      exact absurd hm (by decide)
  have hshape : (fenceWrap s).data
      = (("```json\n" : String).data ++ w1) ++ ('\x7b' :: (mid ++ ['\x7d']))
          ++ (w2 ++ ("\n```" : String).data) := by
    rw [hdata, hsplit]
    simp [List.append_assoc]
  have hcrude : crudeSlice (fenceWrap s).data = '\x7b' :: (mid ++ ['\x7d']) := by
    rw [hshape]
    exact crudeSlice_structure _ _ _ hA hB
  have hfind0 : findCharIdx '\x7b' ('\x7b' :: (mid ++ ['\x7d'])) = some 0 := by
    simp [findCharIdx]
  have hleft : extract_json_object (fenceWrap s)
      = (scanObj ('\x7b' :: (mid ++ ['\x7d'])) 0 false false).map String.mk := by
    simp only [extract_json_object]
    rw [if_neg hfne, hstripfence, hfencehit]
    simp only [if_true, hcrude, hfind0, List.drop_zero]
  have hright : extract_json_object s
      = (scanObj ('\x7b' :: (mid ++ ['\x7d'])) 0 false false).map String.mk := by
    simp only [extract_json_object]
    rw [if_neg hsne, h]
    rcases hf : hasSubL ("```" : String).data ('\x7b' :: (mid ++ ['\x7d'])) with _ | _ <;>
      simp [hf, crudeSlice_self, hfind0]
  rw [hleft, hright]

/-- C7: for every valid JSON object text — its stripped form is a balanced
brace-delimited span that the extractor accepts — parsing the text wrapped
in a markdown code fence through the lenient parser yields exactly the same
result as parsing the unwrapped text, for any strict/fallback parser
pair. -/
theorem claim_C7_lenient_roundtrip {α : Type} (loads leval : String → Option α)
    (s : String) (mid : List Char)
    (h : stripChars s.data = '\x7b' :: (mid ++ ['\x7d']))
    (hs : (extract_json_object s).isSome = true) :
    parse_json_lenient loads leval (fenceWrap s) = parse_json_lenient loads leval s := by
  simp only [parse_json_lenient]
  rw [extract_fence_eq s mid h]
  rcases hx : extract_json_object s with _ | c
  · rw [hx] at hs
    cases hs
  · rfl

/-- Witness for C7: the fenced and unfenced forms of a small JSON object
parse identically. -/
theorem claim_C7_witness :
    stripChars ("\x7b\"a\": 1\x7d" : String).data
      = '\x7b' :: (['"', 'a', '"', ':', ' ', '1'] ++ ['\x7d']) ∧
    (extract_json_object "\x7b\"a\": 1\x7d").isSome = true ∧
    parse_json_lenient (fun t => if t = "\x7b\"a\": 1\x7d" then some 0 else none)
        (fun _ => (none : Option Nat)) (fenceWrap "\x7b\"a\": 1\x7d")
      = parse_json_lenient (fun t => if t = "\x7b\"a\": 1\x7d" then some 0 else none)
        (fun _ => none) "\x7b\"a\": 1\x7d" :=
  ⟨by decide, by decide,
   claim_C7_lenient_roundtrip _ _ _ ['"', 'a', '"', ':', ' ', '1'] (by decide) (by decide)⟩

end Monitor
